import Mathlib

/-!
ELF loader example: host sketch and blink payloads

A shallow embedding of the three sources of the repository

* `examples/host/src/main.cpp`  (the export table and `setup`),
* `examples/payload/blink.c`    (the C payload),
* `examples/payload/blink.cpp`  (the C++ payload).
-/

set_option autoImplicit false

namespace ElfLoader

/-! ## Host: the export table (`main.cpp`, lines 6-13) -/

/-- The Arduino functions whose addresses are taken in `exports`. -/
inductive HostFn where
  | digitalRead
  | digitalWrite
  | pinMode
  | delay
  deriving DecidableEq, Repr

/-- `ELFLoaderSymbol_t` of `loader.h`: a name and a `void *`. -/
structure ELFLoaderSymbol_t where
  name : String
  ptr : Nat
  deriving DecidableEq, Repr

/-- `ELFLoaderEnv_t` of `loader.h`: the table and the number of its entries. -/
structure ELFLoaderEnv_t where
  exported : List ELFLoaderSymbol_t
  exported_size : Nat
  deriving DecidableEq, Repr

/-- What the sources leave to the platform and the build: the addresses of the
Arduino functions, `sizeof(ELFLoaderSymbol_t)` (the size of a type is never
0), and the bytes of `blink_elf` (from the generated `blink_payload.h`). -/
structure Platform where
  addr : HostFn → Nat
  symSize : Nat
  symSize_pos : 0 < symSize
  blink_elf : List Nat

/-- `static const ELFLoaderSymbol_t exports[]`. -/
def exports (P : Platform) : List ELFLoaderSymbol_t :=
  [ ⟨"digitalRead", P.addr HostFn.digitalRead⟩,
    ⟨"digitalWrite", P.addr HostFn.digitalWrite⟩,
    ⟨"pinMode", P.addr HostFn.pinMode⟩,
    ⟨"delay", P.addr HostFn.delay⟩ ]

/-- `sizeof(exports)`: the number of elements times the size of one. -/
def sizeofExports (P : Platform) : Nat :=
  (exports P).length * P.symSize

/-- `static const ELFLoaderEnv_t env = {exports, sizeof(exports) / sizeof(*exports)}`. -/
def env (P : Platform) : ELFLoaderEnv_t :=
  ⟨exports P, sizeofExports P / P.symSize⟩

/-- The names of a table, in table order. -/
def exportNames (P : Platform) : List String :=
  (exports P).map (fun e => e.name)

/-! ## Host: `setup` (`main.cpp`, lines 15-35) -/

/-- The loader as `setup` sees it: each call returns a value chosen by the
loader; `elfLoaderRun` may also not return (`none`). A context pointer is a
number, `0` being the null pointer. -/
structure Loader where
  elfLoaderInitLoadAndRelocate : List Nat → ELFLoaderEnv_t → Nat
  elfLoaderSetFunc : Nat → String → Int
  elfLoaderRun : Nat → Nat → Option Int

/-- What `setup` does that is visible outside it. -/
inductive HostEvent where
  | serialBegin (baud : Nat)
  | println (s : String)
  | initLoadAndRelocate (bytes : List Nat) (e : ELFLoaderEnv_t)
  | setFunc (ctx : Nat) (name : String)
  | run (ctx : Nat) (arg : Nat)
  | free (ctx : Nat)
  deriving DecidableEq, Repr

/-- The calls `elfLoaderSetFunc`, `elfLoaderRun`, `elfLoaderFree`. -/
def HostEvent.isCtxOp : HostEvent → Bool
  | HostEvent.setFunc _ _ => true
  | HostEvent.run _ _ => true
  | HostEvent.free _ => true
  | _ => false

/-- The call `elfLoaderFree`. -/
def HostEvent.isFree : HostEvent → Bool
  | HostEvent.free _ => true
  | _ => false

/-- The call `elfLoaderRun`. -/
def HostEvent.isRun : HostEvent → Bool
  | HostEvent.run _ _ => true
  | _ => false

/-- The call `elfLoaderSetFunc`. -/
def HostEvent.isSetFunc : HostEvent → Bool
  | HostEvent.setFunc _ _ => true
  | _ => false

/-- The events of one execution of `setup`, and whether `setup` returned. -/
structure SetupResult where
  trace : List HostEvent
  returned : Bool
  deriving DecidableEq, Repr

/-- The name passed to `elfLoaderSetFunc`. -/
def entryName : String := "local_main"

/-- The value of `ctx` in `setup`: what `elfLoaderInitLoadAndRelocate` returned. -/
def loadedCtx (P : Platform) (L : Loader) : Nat :=
  L.elfLoaderInitLoadAndRelocate P.blink_elf (env P)

/-- The value `elfLoaderSetFunc(ctx, "local_main")` returns. -/
def setFuncResult (P : Platform) (L : Loader) : Int :=
  L.elfLoaderSetFunc (loadedCtx P L) entryName

/-- The null pointer passed as the argument of `elfLoaderRun`. -/
def NULL : Nat := 0

/-- `void setup()`. -/
def setup (P : Platform) (L : Loader) : SetupResult :=
  let ctx := loadedCtx P L
  let t1 := [HostEvent.serialBegin 115200, HostEvent.initLoadAndRelocate P.blink_elf (env P)]
  if ctx = 0 then
    ⟨t1 ++ [HostEvent.println "Failed to load ELF"], true⟩
  else
    let t2 := t1 ++ [HostEvent.setFunc ctx entryName]
    if setFuncResult P L ≠ 0 then
      ⟨t2 ++ [HostEvent.println "Error: local_main function not found", HostEvent.free ctx], true⟩
    else
      let t3 := t2 ++ [HostEvent.println "Running local_main()", HostEvent.run ctx NULL]
      match L.elfLoaderRun ctx NULL with
      | none => ⟨t3, false⟩
      | some _ => ⟨t3 ++ [HostEvent.free ctx], true⟩

/-- The context operations that follow the first `elfLoaderFree` of a trace. -/
def opsAfterFree : List HostEvent → List HostEvent
  | [] => []
  | HostEvent.free _ :: rest => rest.filter HostEvent.isCtxOp
  | _ :: rest => opsAfterFree rest

/-! ## Payload sources: the functions they declare -/

/-- Language linkage of a declaration: the default of the language the file is
compiled as, or `extern "C"`. -/
inductive Linkage where
  | languageDefault
  | c
  deriving DecidableEq, Repr

/-- A function declaration of a payload source. -/
structure FunDecl where
  name : String
  linkage : Linkage
  ret : String
  params : List String
  hasBody : Bool
  deriving DecidableEq, Repr

/-- The function declarations written in `blink.c`. -/
def blink_c_decls : List FunDecl :=
  [ ⟨"digitalWrite", Linkage.languageDefault, "void", ["uint8_t", "uint8_t"], false⟩,
    ⟨"pinMode", Linkage.languageDefault, "void", ["uint8_t", "uint8_t"], false⟩,
    ⟨"delay", Linkage.languageDefault, "void", ["uint32_t"], false⟩,
    ⟨"local_main", Linkage.c, "int", [], true⟩ ]

/-- The function declarations written in `blink.cpp`. -/
def blink_cpp_decls : List FunDecl :=
  [ ⟨"digitalWrite", Linkage.c, "void", ["uint8_t", "uint8_t"], false⟩,
    ⟨"digitalRead", Linkage.c, "int", ["uint8_t"], false⟩,
    ⟨"pinMode", Linkage.c, "void", ["uint8_t", "uint8_t"], false⟩,
    ⟨"delay", Linkage.c, "void", ["uint32_t"], false⟩,
    ⟨"App::App", Linkage.languageDefault, "", ["int"], true⟩,
    ⟨"App::run", Linkage.languageDefault, "void", [], true⟩,
    ⟨"App::~App", Linkage.languageDefault, "", [], true⟩,
    ⟨"Blink::Blink", Linkage.languageDefault, "", ["uint8_t", "int"], true⟩,
    ⟨"Blink::run", Linkage.languageDefault, "void", [], true⟩,
    ⟨"local_main", Linkage.c, "int", [], true⟩ ]

/-- A linkage specification `extern "C"` is C++ only: a source in which some
declaration carries one is a C++ translation unit. -/
def isCppUnit (decls : List FunDecl) : Bool :=
  decls.any (fun d => d.linkage == Linkage.c)

/-- The code of a parameter type in a C++ symbol name: the typedefs of the
payloads (`uint8_t` is `unsigned char`, `uint32_t` is `unsigned int`) and the
built-in types; a class type is its name preceded by its length. -/
def typeCode (t : String) : String :=
  if t == "void" then "v"
  else if t == "uint8_t" then "h"
  else if t == "uint32_t" then "j"
  else if t == "int" then "i"
  else toString t.length ++ t

/-- The symbol name the C++ compiler gives a function declared at namespace
scope with C++ linkage: `_Z`, the length of the identifier, the identifier,
and the codes of the parameter types (`v` for an empty list). -/
def mangledName (d : FunDecl) : String :=
  "_Z" ++ toString d.name.length ++ d.name ++
    (if d.params.isEmpty then "v" else String.join (d.params.map typeCode))

/-- The symbol name under which the object file of a source refers to a
function: the identifier itself for `extern "C"` and for a C source, the
mangled name for C++ linkage in a C++ source. -/
def symbolName (decls : List FunDecl) (d : FunDecl) : String :=
  match d.linkage with
  | Linkage.c => d.name
  | Linkage.languageDefault => if isCppUnit decls then mangledName d else d.name

/-- The identifiers a source declares without defining them. -/
def declaredOnly (decls : List FunDecl) : List String :=
  (decls.filter (fun d => !d.hasBody)).map (fun d => d.name)

/-- The symbols a source leaves undefined in its object file, by the name
under which the loader looks them up: the functions it expects from the host. -/
def hostProvided (decls : List FunDecl) : List String :=
  (decls.filter (fun d => !d.hasBody)).map (symbolName decls)

/-- The definitions (declarations with a body) of a given name. -/
def definitionsOf (decls : List FunDecl) (n : String) : List FunDecl :=
  decls.filter (fun d => d.hasBody && d.name == n)

/-! ## Payloads: the host calls they make -/

/-- Conversion to `uint8_t`. -/
def u8 (x : Nat) : Nat := x % 2 ^ 8

/-- Conversion to `uint32_t`. -/
def u32 (x : Nat) : Nat := x % 2 ^ 32

/-- `#define LOW 0x0`. -/
def LOW : Nat := 0x0

/-- `#define HIGH 0x1`. -/
def HIGH : Nat := 0x1

/-- `#define OUTPUT 0x03`. -/
def OUTPUT : Nat := 0x03

/-- A call of a host function with its argument values. -/
structure Call where
  fn : HostFn
  args : List Nat
  deriving DecidableEq, Repr

/-- `pinMode(pin, mode)` with both arguments converted to `uint8_t`. -/
def callPinMode (pin mode : Nat) : Call := ⟨HostFn.pinMode, [u8 pin, u8 mode]⟩

/-- `digitalWrite(pin, val)` with both arguments converted to `uint8_t`. -/
def callDigitalWrite (pin val : Nat) : Call := ⟨HostFn.digitalWrite, [u8 pin, u8 val]⟩

/-- `delay(ms)` with the argument converted to `uint32_t`. -/
def callDelay (ms : Nat) : Call := ⟨HostFn.delay, [u32 ms]⟩

/-- Run a step function for at most `fuel` steps, appending the host calls it
makes to `acc`; a step function answers `none` in a state without successor. -/
def runSteps {σ : Type} (step : σ → Option (σ × Option Call)) : Nat → σ → List Call → σ × List Call
  | 0, s, acc => (s, acc)
  | fuel + 1, s, acc =>
    match step s with
    | none => (s, acc)
    | some (s', none) => runSteps step fuel s' acc
    | some (s', some c) => runSteps step fuel s' (acc ++ [c])

/-- Control points of `local_main` in `blink.c`, named by source line;
`returned` is the state after `return 0`. -/
inductive CState where
  | l17
  | l18
  | l19
  | l20
  | l21
  | l22
  | l24
  | returned (value : Int)
  deriving DecidableEq, Repr

/-- One step of `local_main` in `blink.c`, every host call returning. -/
def blink_c_step : CState → Option (CState × Option Call)
  | CState.l17 => some (CState.l18, some (callPinMode 2 OUTPUT))
  | CState.l18 => some (if (1 : Int) ≠ 0 then CState.l19 else CState.l24, none)
  | CState.l19 => some (CState.l20, some (callDigitalWrite 2 HIGH))
  | CState.l20 => some (CState.l21, some (callDelay 500))
  | CState.l21 => some (CState.l22, some (callDigitalWrite 2 LOW))
  | CState.l22 => some (CState.l18, some (callDelay 500))
  | CState.l24 => some (CState.returned 0, none)
  | CState.returned _ => none

/-- The host calls of `blink.c` within `fuel` steps of `local_main`. -/
def blink_c_calls (fuel : Nat) : List Call :=
  (runSteps blink_c_step fuel CState.l17 []).2

/-- The state of `blink.c` after `fuel` steps of `local_main`. -/
def blink_c_state (fuel : Nat) : CState :=
  (runSteps blink_c_step fuel CState.l17 []).1

/-- The classes of `blink.cpp`, as the dynamic type of an object. -/
inductive Class where
  | App
  | Blink
  deriving DecidableEq, Repr

/-- An object of class `Blink` (or of its base `App`): the class its virtual
calls dispatch to, `App::version` and `Blink::led_pin`. -/
structure BlinkObj where
  cls : Class
  version : Int
  led_pin : Nat
  deriving DecidableEq, Repr

/-- `Blink(uint8_t pin, int v = 1) : App(v), led_pin(pin)`; the default of `v`
is supplied at the call. -/
def Blink_ctor (pin : Nat) (v : Int) : BlinkObj :=
  ⟨Class.Blink, v, u8 pin⟩

/-- Control points of `local_main` in `blink.cpp`, named by source line, with
the local object `f` once it is constructed. -/
inductive CppState where
  | l53
  | l54 (f : BlinkObj)
  | l31 (f : BlinkObj)
  | l42 (f : BlinkObj)
  | l43 (f : BlinkObj)
  | l44 (f : BlinkObj)
  | l45 (f : BlinkObj)
  | l46 (f : BlinkObj)
  | l47 (f : BlinkObj)
  | l55 (f : BlinkObj)
  | returned (value : Int)
  deriving DecidableEq, Repr

/-- One step of `local_main` in `blink.cpp`, every host call returning:
construct `f`, dispatch `f.run()` on the class of `f`, run the body. -/
def blink_cpp_step : CppState → Option (CppState × Option Call)
  | CppState.l53 => some (CppState.l54 (Blink_ctor 2 1), none)
  | CppState.l54 f =>
    match f.cls with
    | Class.App => some (CppState.l31 f, none)
    | Class.Blink => some (CppState.l42 f, none)
  | CppState.l31 f => some (CppState.l55 f, none)
  | CppState.l42 f => some (CppState.l43 f, some (callPinMode f.led_pin OUTPUT))
  | CppState.l43 f => some (if (1 : Int) ≠ 0 then CppState.l44 f else CppState.l55 f, none)
  | CppState.l44 f => some (CppState.l45 f, some (callDigitalWrite f.led_pin HIGH))
  | CppState.l45 f => some (CppState.l46 f, some (callDelay 500))
  | CppState.l46 f => some (CppState.l47 f, some (callDigitalWrite f.led_pin LOW))
  | CppState.l47 f => some (CppState.l43 f, some (callDelay 500))
  | CppState.l55 _ => some (CppState.returned 0, none)
  | CppState.returned _ => none

/-- The state of `blink.cpp` after `fuel` steps of `local_main`. -/
def blink_cpp_state (fuel : Nat) : CppState :=
  (runSteps blink_cpp_step fuel CppState.l53 []).1

/-- The four calls of one turn of the blink loop. -/
def blinkBlock : List Call :=
  [callDigitalWrite 2 HIGH, callDelay 500, callDigitalWrite 2 LOW, callDelay 500]

/-- The sequence the payloads are expected to produce: `pinMode(2, 3)` once,
then `n` turns of the loop. -/
def expectedCalls (n : Nat) : List Call :=
  callPinMode 2 3 :: (List.replicate n blinkBlock).flatten

/-- What `elfLoaderRun` does when the entry is a payload stepping with `step`
from `start`: it returns the value of the entry if the entry reaches a
`returned` state within `fuel` steps. -/
def entryReturn {σ : Type} (step : σ → Option (σ × Option Call)) (value : σ → Option Int)
    (fuel : Nat) (start : σ) : Option Int :=
  value (runSteps step fuel start []).1

/-- The return value held by a state of `blink.c`. -/
def CState.value : CState → Option Int
  | CState.returned v => some v
  | _ => none

/-- The return value held by a state of `blink.cpp`. -/
def CppState.value : CppState → Option Int
  | CppState.returned v => some v
  | _ => none

/-! ## Example inputs -/

/-- An example platform: addresses of the four host functions, 8 bytes per
table entry, no payload bytes. -/
def samplePlatform : Platform :=
  ⟨fun f => match f with
    | HostFn.digitalRead => 0x400d1000
    | HostFn.digitalWrite => 0x400d1040
    | HostFn.pinMode => 0x400d1080
    | HostFn.delay => 0x400d10c0, 8, by decide, []⟩

/-- A loader for which everything succeeds and the entry returns 0. -/
def loaderAllOk : Loader := ⟨fun _ _ => 5, fun _ _ => 0, fun _ _ => some 0⟩

/-- A loader whose load fails. -/
def loaderLoadFails : Loader := ⟨fun _ _ => 0, fun _ _ => 0, fun _ _ => some 0⟩

/-- A loader that does not find the entry. -/
def loaderNoEntry : Loader := ⟨fun _ _ => 5, fun _ _ => -1, fun _ _ => some 0⟩

/-- The states of `blink.c` from which `local_main` has not left its loop:
the start and the points of the loop. -/
def CState.running : CState → Bool
  | CState.l24 => false
  | CState.returned _ => false
  | _ => true

/-- The states of `blink.cpp` in which `local_main` is before or inside the
loop of `Blink::run`, the object `f` being a `Blink`. -/
def CppState.running : CppState → Bool
  | CppState.l53 => true
  | CppState.l54 f => decide (f.cls = Class.Blink)
  | CppState.l31 _ => false
  | CppState.l55 _ => false
  | CppState.returned _ => false
  | _ => true

/-- A loader whose `elfLoaderRun` does not return. -/
def loaderRunBlocks : Loader := ⟨fun _ _ => 5, fun _ _ => 0, fun _ _ => none⟩

/-! ## Theorems: the host -/

theorem mem_opsAfterFree (tr pre post : List HostEvent) (c : Nat) (e : HostEvent)
    (htr : tr = pre ++ HostEvent.free c :: post) (he : e ∈ post) (hop : e.isCtxOp = true) :
    e ∈ opsAfterFree tr := by
  subst htr
  induction pre with
  | nil => simp [opsAfterFree, he, hop]
  | cons x pre ih =>
    cases x <;> simp only [List.cons_append, opsAfterFree] <;> first
      | exact ih
      | exact List.mem_filter.mpr
          ⟨List.mem_append.mpr (Or.inr (List.mem_cons_of_mem _ he)), hop⟩

theorem setup_cases (P : Platform) (L : Loader) :
    (loadedCtx P L = 0 ∧
      setup P L = ⟨[HostEvent.serialBegin 115200,
        HostEvent.initLoadAndRelocate P.blink_elf (env P),
        HostEvent.println "Failed to load ELF"], true⟩) ∨
    (loadedCtx P L ≠ 0 ∧ setFuncResult P L ≠ 0 ∧
      setup P L = ⟨[HostEvent.serialBegin 115200,
        HostEvent.initLoadAndRelocate P.blink_elf (env P),
        HostEvent.setFunc (loadedCtx P L) "local_main",
        HostEvent.println "Error: local_main function not found",
        HostEvent.free (loadedCtx P L)], true⟩) ∨
    (loadedCtx P L ≠ 0 ∧ setFuncResult P L = 0 ∧
      L.elfLoaderRun (loadedCtx P L) NULL = none ∧
      setup P L = ⟨[HostEvent.serialBegin 115200,
        HostEvent.initLoadAndRelocate P.blink_elf (env P),
        HostEvent.setFunc (loadedCtx P L) "local_main",
        HostEvent.println "Running local_main()",
        HostEvent.run (loadedCtx P L) NULL], false⟩) ∨
    (loadedCtx P L ≠ 0 ∧ setFuncResult P L = 0 ∧
      (∃ v, L.elfLoaderRun (loadedCtx P L) NULL = some v) ∧
      setup P L = ⟨[HostEvent.serialBegin 115200,
        HostEvent.initLoadAndRelocate P.blink_elf (env P),
        HostEvent.setFunc (loadedCtx P L) "local_main",
        HostEvent.println "Running local_main()",
        HostEvent.run (loadedCtx P L) NULL,
        HostEvent.free (loadedCtx P L)], true⟩) := by
  by_cases h0 : loadedCtx P L = 0
  · left
    simp [setup, h0]
  · right
    by_cases h1 : setFuncResult P L = 0
    · right
      cases h2 : L.elfLoaderRun (loadedCtx P L) NULL with
      | none => left; simp [setup, h0, h1, h2, entryName]
      | some v => right; simp [setup, h0, h1, h2, entryName]
    · left
      simp [setup, h0, h1, entryName]

/-- C1: on every path on which `setup` returns, `elfLoaderFree` is called
exactly once, on the context, if the load returned one, and never if the load
returned null; and nothing that follows an `elfLoaderFree` in the trace is an
`elfLoaderSetFunc`, `elfLoaderRun` or `elfLoaderFree`. -/
theorem setup_free_discipline (P : Platform) (L : Loader)
    (hret : (setup P L).returned = true) :
    (loadedCtx P L ≠ 0 →
      (setup P L).trace.filter HostEvent.isFree = [HostEvent.free (loadedCtx P L)]) ∧
    (loadedCtx P L = 0 → (setup P L).trace.filter HostEvent.isFree = []) ∧
    (∀ pre post c, (setup P L).trace = pre ++ HostEvent.free c :: post →
      ∀ e ∈ post, e.isCtxOp = false) := by
  have hops : opsAfterFree (setup P L).trace = [] := by
    rcases setup_cases P L with ⟨_, h⟩ | ⟨_, _, h⟩ | ⟨_, _, _, h⟩ | ⟨_, _, _, h⟩ <;>
      simp [h, opsAfterFree, HostEvent.isCtxOp]
  refine ⟨?_, ?_, ?_⟩
  · intro hne
    rcases setup_cases P L with ⟨h0, _⟩ | ⟨_, _, h⟩ | ⟨_, _, _, h⟩ | ⟨_, _, _, h⟩
    · exact absurd h0 hne
    · simp [h, HostEvent.isFree]
    · rw [h] at hret; simp at hret
    · simp [h, HostEvent.isFree]
  · intro h0
    rcases setup_cases P L with ⟨_, h⟩ | ⟨hne, _⟩ | ⟨hne, _⟩ | ⟨hne, _⟩
    · simp [h, HostEvent.isFree]
    · exact absurd h0 hne
    · exact absurd h0 hne
    · exact absurd h0 hne
  · intro pre post c htr e he
    cases hop : e.isCtxOp with
    | false => rfl
    | true =>
      have := mem_opsAfterFree _ pre post c e htr he hop
      rw [hops] at this
      simp at this

/-- Witness of C1 at a loader for which every call succeeds and returns. -/
theorem setup_free_discipline_witness :
    (setup samplePlatform loaderAllOk).returned = true ∧
    (setup samplePlatform loaderAllOk).trace.filter HostEvent.isFree = [HostEvent.free 5] :=
  ⟨by decide,
   (setup_free_discipline samplePlatform loaderAllOk (by decide)).1 (by decide)⟩

/-- C2: `elfLoaderRun` appears in the trace of `setup` only when the load
returned a non-null context and `elfLoaderSetFunc` returned 0, and then it is
the call `elfLoaderRun(ctx, NULL)`; when `elfLoaderSetFunc` returns a non-zero
value, `setup` prints the not-found error, frees the context and returns
without calling `elfLoaderRun`. -/
theorem setup_run_guard (P : Platform) (L : Loader) :
    (∀ e ∈ (setup P L).trace, e.isRun = true →
      loadedCtx P L ≠ 0 ∧ setFuncResult P L = 0 ∧ e = HostEvent.run (loadedCtx P L) NULL) ∧
    (loadedCtx P L ≠ 0 → setFuncResult P L ≠ 0 →
      setup P L = ⟨[HostEvent.serialBegin 115200,
        HostEvent.initLoadAndRelocate P.blink_elf (env P),
        HostEvent.setFunc (loadedCtx P L) "local_main",
        HostEvent.println "Error: local_main function not found",
        HostEvent.free (loadedCtx P L)], true⟩ ∧
      ∀ e ∈ (setup P L).trace, e.isRun = false) := by
  constructor
  · intro e he hrun
    rcases setup_cases P L with ⟨_, h⟩ | ⟨_, _, h⟩ | ⟨h0, h1, _, h⟩ | ⟨h0, h1, _, h⟩ <;>
      rw [h] at he <;> simp at he
    · rcases he with rfl | rfl | rfl <;> simp [HostEvent.isRun] at hrun
    · rcases he with rfl | rfl | rfl | rfl | rfl <;> simp [HostEvent.isRun] at hrun
    · rcases he with rfl | rfl | rfl | rfl | rfl <;> simp [HostEvent.isRun] at hrun
      exact ⟨h0, h1, rfl⟩
    · rcases he with rfl | rfl | rfl | rfl | rfl | rfl <;> simp [HostEvent.isRun] at hrun
      exact ⟨h0, h1, rfl⟩
  · intro hne hsf
    rcases setup_cases P L with ⟨h0, _⟩ | ⟨_, _, h⟩ | ⟨_, h1, _⟩ | ⟨_, h1, _⟩
    · exact absurd h0 hne
    · refine ⟨h, ?_⟩
      rw [h]
      intro e he
      simp at he
      rcases he with rfl | rfl | rfl | rfl | rfl <;> rfl
    · exact absurd h1 hsf
    · exact absurd h1 hsf

/-- Witness of C2 at a loader that does not find the entry. -/
theorem setup_run_guard_witness :
    loadedCtx samplePlatform loaderNoEntry ≠ 0 ∧
    setFuncResult samplePlatform loaderNoEntry ≠ 0 ∧
    ∀ e ∈ (setup samplePlatform loaderNoEntry).trace, e.isRun = false :=
  ⟨by decide, by decide,
   ((setup_run_guard samplePlatform loaderNoEntry).2 (by decide) (by decide)).2⟩

/-- C3: when `elfLoaderInitLoadAndRelocate` returns null, `setup` prints
"Failed to load ELF" and returns, and its trace has no `elfLoaderSetFunc`,
`elfLoaderRun` or `elfLoaderFree`. -/
theorem setup_load_failed (P : Platform) (L : Loader) (h0 : loadedCtx P L = 0) :
    setup P L = ⟨[HostEvent.serialBegin 115200,
      HostEvent.initLoadAndRelocate P.blink_elf (env P),
      HostEvent.println "Failed to load ELF"], true⟩ ∧
    ∀ e ∈ (setup P L).trace, e.isCtxOp = false := by
  have h : setup P L = ⟨[HostEvent.serialBegin 115200,
      HostEvent.initLoadAndRelocate P.blink_elf (env P),
      HostEvent.println "Failed to load ELF"], true⟩ := by
    simp [setup, h0]
  refine ⟨h, ?_⟩
  rw [h]
  intro e he
  simp at he
  rcases he with rfl | rfl | rfl <;> rfl

/-- Witness of C3 at a loader whose load fails. -/
theorem setup_load_failed_witness :
    loadedCtx samplePlatform loaderLoadFails = 0 ∧
    ∀ e ∈ (setup samplePlatform loaderLoadFails).trace, e.isCtxOp = false :=
  ⟨by decide, (setup_load_failed samplePlatform loaderLoadFails (by decide)).2⟩

/-! ## Theorems: the export table and the payload declarations -/

/-- C4: the functions each payload declares without defining are
`digitalWrite`, `pinMode`, `delay` for `blink.c` and `digitalWrite`,
`digitalRead`, `pinMode`, `delay` for `blink.cpp`. Those of `blink.cpp` have C
linkage and each of them is the name of an entry of `exports`. Those of
`blink.c` are declared outside any `extern "C"` in a source that is C++ (its
`local_main` is `extern "C"`), so its object file asks for the mangled names
`_Z12digitalWritehh`, `_Z7pinModehh`, `_Z5delayj`, and none of them is the name
of an entry of `exports`. -/
theorem blink_c_host_functions_not_exported (P : Platform) :
    declaredOnly blink_c_decls = ["digitalWrite", "pinMode", "delay"] ∧
    declaredOnly blink_cpp_decls = ["digitalWrite", "digitalRead", "pinMode", "delay"] ∧
    isCppUnit blink_c_decls = true ∧
    hostProvided blink_c_decls = ["_Z12digitalWritehh", "_Z7pinModehh", "_Z5delayj"] ∧
    (hostProvided blink_c_decls).map
        (fun n => ((exports P).find? (fun x => x.name == n)).isSome)
      = [false, false, false] ∧
    (hostProvided blink_c_decls).map (fun n => decide (n ∈ exportNames P))
      = [false, false, false] ∧
    hostProvided blink_cpp_decls = ["digitalWrite", "digitalRead", "pinMode", "delay"] ∧
    (hostProvided blink_cpp_decls).map
        (fun n => ((exports P).find? (fun x => x.name == n)).isSome)
      = [true, true, true, true] := by
  have hc : hostProvided blink_c_decls
      = ["_Z12digitalWritehh", "_Z7pinModehh", "_Z5delayj"] := by decide
  have hp : hostProvided blink_cpp_decls
      = ["digitalWrite", "digitalRead", "pinMode", "delay"] := by decide
  have hn : exportNames P = ["digitalRead", "digitalWrite", "pinMode", "delay"] := rfl
  refine ⟨by decide, by decide, by decide, hc, ?_, ?_, hp, ?_⟩
  · rw [hc]; simp [exports, List.find?]
  · rw [hc, hn]; decide
  · rw [hp]; simp [exports, List.find?]

/-- C5: the count stored in `env` is the number of entries of `exports`, which
is 4; the names of the entries are `digitalRead`, `digitalWrite`, `pinMode`,
`delay`, pairwise distinct; and for every entry of the table both the first
and the last entry bearing its name are that entry itself. -/
theorem exports_well_formed (P : Platform) :
    (env P).exported = exports P ∧
    (env P).exported_size = (exports P).length ∧
    (exports P).length = 4 ∧
    exportNames P = ["digitalRead", "digitalWrite", "pinMode", "delay"] ∧
    (exportNames P).Nodup ∧
    ∀ x ∈ exports P,
      (exports P).find? (fun y => y.name == x.name) = some x ∧
      (exports P).reverse.find? (fun y => y.name == x.name) = some x := by
  have hn : exportNames P = ["digitalRead", "digitalWrite", "pinMode", "delay"] := rfl
  refine ⟨rfl, ?_, rfl, hn, ?_, ?_⟩
  · show sizeofExports P / P.symSize = (exports P).length
    unfold sizeofExports
    exact Nat.mul_div_cancel _ P.symSize_pos
  · rw [hn]; decide
  · intro x hx
    simp only [exports, List.mem_cons, List.mem_singleton, List.not_mem_nil, or_false] at hx
    rcases hx with rfl | rfl | rfl | rfl <;> simp [exports, List.find?]

/-- Witness of C5 at the `pinMode` entry of the example platform. -/
theorem exports_well_formed_witness :
    (exports samplePlatform).find? (fun y => y.name == "pinMode")
      = some ⟨"pinMode", 0x400d1080⟩ :=
  ((exports_well_formed samplePlatform).2.2.2.2.2 ⟨"pinMode", 0x400d1080⟩
    (by simp [exports, samplePlatform])).1

/-- C6: the name `setup` passes to `elfLoaderSetFunc` is `local_main`; each of
`blink.c` and `blink.cpp` has exactly one definition of that name, an
`int local_main()` with C linkage; and the name is neither an entry of the
export table nor one of the functions the payloads expect from the host. -/
theorem entry_defined_by_payload (P : Platform) (L : Loader) :
    (∀ e ∈ (setup P L).trace, e.isSetFunc = true →
      e = HostEvent.setFunc (loadedCtx P L) "local_main") ∧
    entryName = "local_main" ∧
    definitionsOf blink_c_decls entryName = [⟨"local_main", Linkage.c, "int", [], true⟩] ∧
    definitionsOf blink_cpp_decls entryName = [⟨"local_main", Linkage.c, "int", [], true⟩] ∧
    entryName ∉ exportNames P ∧
    (exports P).find? (fun x => x.name == entryName) = none ∧
    entryName ∉ hostProvided blink_c_decls ∧
    entryName ∉ hostProvided blink_cpp_decls := by
  refine ⟨?_, rfl, by decide, by decide, ?_, ?_, by decide, by decide⟩
  · intro e he hsf
    rcases setup_cases P L with ⟨_, h⟩ | ⟨_, _, h⟩ | ⟨_, _, _, h⟩ | ⟨_, _, _, h⟩ <;>
      rw [h] at he <;> simp at he
    · rcases he with rfl | rfl | rfl <;> simp [HostEvent.isSetFunc] at hsf
    · rcases he with rfl | rfl | rfl | rfl | rfl <;> simp [HostEvent.isSetFunc] at hsf
      rfl
    · rcases he with rfl | rfl | rfl | rfl | rfl <;> simp [HostEvent.isSetFunc] at hsf
      rfl
    · rcases he with rfl | rfl | rfl | rfl | rfl | rfl <;> simp [HostEvent.isSetFunc] at hsf
      rfl
  · have hn : exportNames P = ["digitalRead", "digitalWrite", "pinMode", "delay"] := rfl
    rw [hn]; decide
  · simp [exports, List.find?, entryName]

/-- Witness of C6 at a loader for which every call succeeds. -/
theorem entry_defined_by_payload_witness :
    HostEvent.setFunc 5 entryName ∈ (setup samplePlatform loaderAllOk).trace ∧
    HostEvent.setFunc 5 entryName
      = HostEvent.setFunc (loadedCtx samplePlatform loaderAllOk) "local_main" :=
  ⟨by decide, (entry_defined_by_payload samplePlatform loaderAllOk).1
    (HostEvent.setFunc 5 entryName) (by decide) rfl⟩

/-! ## Theorems: the payloads -/

theorem runSteps_add {σ : Type} (step : σ → Option (σ × Option Call)) (a b : Nat) :
    ∀ (s : σ) (acc : List Call),
      runSteps step (a + b) s acc
        = runSteps step b (runSteps step a s acc).1 (runSteps step a s acc).2 := by
  induction a with
  | zero => intro s acc; simp [runSteps]
  | succ a ih =>
    intro s acc
    rw [Nat.succ_add]
    cases hs : step s with
    | none =>
      cases b with
      | zero => simp [runSteps, hs]
      | succ b => simp [runSteps, hs]
    | some p =>
      obtain ⟨s', oc⟩ := p
      cases oc with
      | none => simp [runSteps, hs, ih]
      | some c => simp [runSteps, hs, ih]

theorem runSteps_extends {σ : Type} (step : σ → Option (σ × Option Call)) (n : Nat) :
    ∀ (s : σ) (acc : List Call), acc <+: (runSteps step n s acc).2 := by
  induction n with
  | zero => intro s acc; simp [runSteps]
  | succ n ih =>
    intro s acc
    cases hs : step s with
    | none => simp [runSteps, hs]
    | some p =>
      obtain ⟨s', oc⟩ := p
      cases oc with
      | none => simpa [runSteps, hs] using ih s' acc
      | some c =>
        have h := ih s' (acc ++ [c])
        simp only [runSteps, hs]
        exact (List.prefix_append acc [c]).trans h

theorem expectedCalls_succ (n : Nat) :
    expectedCalls (n + 1) = expectedCalls n ++ blinkBlock := by
  simp [expectedCalls, List.replicate_succ']

theorem expectedCalls_length (n : Nat) : (expectedCalls n).length = 1 + 4 * n := by
  induction n with
  | zero => simp [expectedCalls]
  | succ n ih => rw [expectedCalls_succ, List.length_append, ih]; simp [blinkBlock]; ring

theorem blink_c_loop (acc : List Call) :
    runSteps blink_c_step 5 CState.l18 acc = (CState.l18, acc ++ blinkBlock) := by
  simp [runSteps, blink_c_step, blinkBlock]

theorem blink_c_closed (n : Nat) :
    runSteps blink_c_step (1 + 5 * n) CState.l17 [] = (CState.l18, expectedCalls n) := by
  induction n with
  | zero => simp [runSteps, blink_c_step, expectedCalls, OUTPUT]
  | succ n ih =>
    have : 1 + 5 * (n + 1) = (1 + 5 * n) + 5 := by ring
    rw [this, runSteps_add, ih, blink_c_loop, expectedCalls_succ]

theorem blink_c_calls_initial (fuel : Nat) : blink_c_calls fuel <+: expectedCalls fuel := by
  have h : 1 + 5 * fuel = fuel + (1 + 4 * fuel) := by ring
  have h1 := blink_c_closed fuel
  rw [h, runSteps_add] at h1
  have h2 := runSteps_extends blink_c_step (1 + 4 * fuel)
    (runSteps blink_c_step fuel CState.l17 []).1 (runSteps blink_c_step fuel CState.l17 []).2
  rw [h1] at h2
  exact h2

theorem take_of_initial {α : Type} (l₁ l₂ : List α) (n : Nat) (h : l₁ <+: l₂)
    (hn : n ≤ l₁.length) : l₁.take n = l₂.take n := by
  obtain ⟨t, rfl⟩ := h
  rw [List.take_append_of_le_length hn]

theorem mem_blinkBlocks (n : Nat) (c : Call)
    (hc : c ∈ (List.replicate n blinkBlock).flatten) : c ∈ blinkBlock := by
  rw [List.mem_flatten] at hc
  obtain ⟨l, hl, hcl⟩ := hc
  rw [List.mem_replicate] at hl
  rw [← hl.2]; exact hcl

theorem mem_tail_of_initial {α : Type} (l₁ l₂ : List α) (h : l₁ <+: l₂) (x : α)
    (hx : x ∈ l₁.tail) : x ∈ l₂.tail := by
  obtain ⟨t, rfl⟩ := h
  cases l₁ with
  | nil => simp at hx
  | cons a l => simp at hx ⊢; exact Or.inl hx

theorem blink_c_live (n : Nat) :
    ∀ (s : CState) (acc : List Call), CState.running s = true →
      CState.running (runSteps blink_c_step n s acc).1 = true := by
  induction n with
  | zero => intro s acc h; simpa [runSteps] using h
  | succ n ih =>
    intro s acc h
    cases s <;> simp [CState.running] at h <;> simp only [runSteps, blink_c_step] <;>
      apply ih <;> simp [CState.running]

theorem blink_cpp_live (n : Nat) :
    ∀ (s : CppState) (acc : List Call), CppState.running s = true →
      CppState.running (runSteps blink_cpp_step n s acc).1 = true := by
  induction n with
  | zero => intro s acc h; simpa [runSteps] using h
  | succ n ih =>
    intro s acc h
    cases s with
    | l54 f =>
      obtain ⟨cls, v, pin⟩ := f
      cases cls <;> simp [CppState.running] at h
      simp only [runSteps, blink_cpp_step]
      apply ih; simp [CppState.running]
    | l53 => simp only [runSteps, blink_cpp_step]; apply ih; simp [CppState.running, Blink_ctor]
    | l42 f => simp only [runSteps, blink_cpp_step]; apply ih; simp [CppState.running]
    | l43 f => simp only [runSteps, blink_cpp_step]; apply ih; simp [CppState.running]
    | l44 f => simp only [runSteps, blink_cpp_step]; apply ih; simp [CppState.running]
    | l45 f => simp only [runSteps, blink_cpp_step]; apply ih; simp [CppState.running]
    | l46 f => simp only [runSteps, blink_cpp_step]; apply ih; simp [CppState.running]
    | l47 f => simp only [runSteps, blink_cpp_step]; apply ih; simp [CppState.running]
    | l31 f => simp [CppState.running] at h
    | l55 f => simp [CppState.running] at h
    | returned v => simp [CppState.running] at h

/-- C8: the host calls of `local_main` in `blink.c` are `pinMode(2, 3)` once,
then `digitalWrite(2, 1)`, `delay(500)`, `digitalWrite(2, 0)`, `delay(500)`
over and over: after `1 + 5 * n` steps exactly `pinMode(2, 3)` and `n` blocks
have been called, with any more fuel the first `1 + 4 * n` calls are these,
and no call after the first is a `pinMode`. -/
theorem blink_c_call_sequence :
    (∀ n, blink_c_calls (1 + 5 * n) = callPinMode 2 3 :: (List.replicate n blinkBlock).flatten) ∧
    (∀ n fuel, 1 + 5 * n ≤ fuel →
      (blink_c_calls fuel).take (1 + 4 * n)
        = callPinMode 2 3 :: (List.replicate n blinkBlock).flatten) ∧
    (∀ fuel, ∀ c ∈ (blink_c_calls fuel).tail, c.fn ≠ HostFn.pinMode) ∧
    blinkBlock = [⟨HostFn.digitalWrite, [2, 1]⟩, ⟨HostFn.delay, [500]⟩,
      ⟨HostFn.digitalWrite, [2, 0]⟩, ⟨HostFn.delay, [500]⟩] ∧
    callPinMode 2 3 = ⟨HostFn.pinMode, [2, 3]⟩ := by
  refine ⟨?_, ?_, ?_, by decide, by decide⟩
  · intro n
    show (runSteps blink_c_step (1 + 5 * n) CState.l17 []).2 = expectedCalls n
    rw [blink_c_closed]
  · intro n fuel hle
    obtain ⟨k, rfl⟩ := Nat.exists_eq_add_of_le hle
    have hp : expectedCalls n <+: blink_c_calls (1 + 5 * n + k) := by
      unfold blink_c_calls
      rw [runSteps_add, blink_c_closed]
      exact runSteps_extends _ _ _ _
    have := take_of_initial _ _ (1 + 4 * n) hp (by rw [expectedCalls_length])
    rw [← this, ← expectedCalls_length n, List.take_length]
    rfl
  · intro fuel c hc
    have h := mem_tail_of_initial _ _ (blink_c_calls_initial fuel) c hc
    have hb := mem_blinkBlocks fuel c (by simpa [expectedCalls] using h)
    simp [blinkBlock] at hb
    rcases hb with rfl | rfl | rfl | rfl <;> simp [callDigitalWrite, callDelay]

/-- Witness of C8: with 20 steps of fuel the first 9 calls are `pinMode(2, 3)`
and two blocks. -/
theorem blink_c_call_sequence_witness :
    (blink_c_calls 20).take (1 + 4 * 2)
      = callPinMode 2 3 :: (List.replicate 2 blinkBlock).flatten :=
  blink_c_call_sequence.2.1 2 20 (by decide)

/-- C10: `local_main` never returns, in `blink.c` and in `blink.cpp`: after
any number of steps the payload can still step, is not at its `return 0` and
holds no return value; hence, when `elfLoaderRun` returns only what the entry
returns, a `setup` that reaches `elfLoaderRun` neither returns nor calls
`elfLoaderFree`. -/
theorem payload_never_returns :
    (∀ fuel, blink_c_step (blink_c_state fuel) ≠ none ∧ blink_c_state fuel ≠ CState.l24 ∧
      entryReturn blink_c_step CState.value fuel CState.l17 = none) ∧
    (∀ fuel, blink_cpp_step (blink_cpp_state fuel) ≠ none ∧
      (∀ f, blink_cpp_state fuel ≠ CppState.l55 f) ∧
      entryReturn blink_cpp_step CppState.value fuel CppState.l53 = none) ∧
    (∀ (P : Platform) (L : Loader),
      (∀ v, L.elfLoaderRun (loadedCtx P L) NULL = some v →
        ∃ fuel, entryReturn blink_c_step CState.value fuel CState.l17 = some v ∨
          entryReturn blink_cpp_step CppState.value fuel CppState.l53 = some v) →
      loadedCtx P L ≠ 0 → setFuncResult P L = 0 →
      (setup P L).returned = false ∧ (setup P L).trace.filter HostEvent.isFree = []) := by
  have hC : ∀ fuel, CState.running (blink_c_state fuel) = true := fun fuel =>
    blink_c_live fuel CState.l17 [] rfl
  have hP : ∀ fuel, CppState.running (blink_cpp_state fuel) = true := fun fuel =>
    blink_cpp_live fuel CppState.l53 [] rfl
  have hCr : ∀ fuel, entryReturn blink_c_step CState.value fuel CState.l17 = none := by
    intro fuel
    have h := hC fuel
    unfold entryReturn
    unfold blink_c_state at h
    revert h
    cases (runSteps blink_c_step fuel CState.l17 []).1 <;> simp [CState.running, CState.value]
  have hPr : ∀ fuel, entryReturn blink_cpp_step CppState.value fuel CppState.l53 = none := by
    intro fuel
    have h := hP fuel
    unfold entryReturn
    unfold blink_cpp_state at h
    revert h
    cases (runSteps blink_cpp_step fuel CppState.l53 []).1 <;>
      simp [CppState.running, CppState.value]
  refine ⟨?_, ?_, ?_⟩
  · intro fuel
    refine ⟨?_, ?_, hCr fuel⟩
    · have h := hC fuel
      revert h
      cases blink_c_state fuel <;> simp [CState.running, blink_c_step]
    · intro heq
      have h := hC fuel
      rw [heq] at h
      simp [CState.running] at h
  · intro fuel
    refine ⟨?_, ?_, hPr fuel⟩
    · have h := hP fuel
      revert h
      cases blink_cpp_state fuel with
      | l54 f => obtain ⟨cls, v, pin⟩ := f; cases cls <;> simp [CppState.running, blink_cpp_step]
      | _ => simp [CppState.running, blink_cpp_step]
    · intro f heq
      have h := hP fuel
      rw [heq] at h
      simp [CppState.running] at h
  · intro P L hrun h0 h1
    rcases setup_cases P L with ⟨h0', _⟩ | ⟨_, h1', _⟩ | ⟨_, _, _, h⟩ | ⟨_, _, ⟨v, hv⟩, _⟩
    · exact absurd h0' h0
    · exact absurd h1 h1'
    · rw [h]; simp [HostEvent.isFree]
    · obtain ⟨fuel, hf | hf⟩ := hrun v hv
      · rw [hCr fuel] at hf; simp at hf
      · rw [hPr fuel] at hf; simp at hf

/-- Witness of C10: a host whose `elfLoaderRun` does not return. -/
theorem payload_never_returns_witness :
    (setup samplePlatform loaderRunBlocks).returned = false ∧
    (setup samplePlatform loaderRunBlocks).trace.filter HostEvent.isFree = [] :=
  payload_never_returns.2.2 samplePlatform loaderRunBlocks
    (fun v hv => by simp [loaderRunBlocks] at hv) (by decide) (by decide)

end ElfLoader
